import Mathlib

/-!
Verification of the time-sender-hub delivery scheduler.

Shallow embedding of the repository code:
* `src/supabase/functions/send-scheduled-file/index.ts` — the sweep worker
  (`processScheduledFiles`, `sendEmail`, the per-item status updates);
* `src/supabase/functions/cron-scheduler/index.ts` — the cron variant
  (`updateFileStatus`, `processFile`);
* `src/src/services/fileService.ts` — the client operations
  (`scheduleFile`, `updateScheduledFile`, `getFileByToken`,
  `triggerFileSending`).

The `scheduled_files` table is a `List FileRow`; every supabase
`.update(...).eq(...)` call is one `List.map` that patches exactly the
columns present in the update payload.  Timestamps are naturals (ISO-8601
UTC strings are order-isomorphic to their epoch values).  External effects
(the select error, the Resend API outcome, claim-update errors, thrown
exceptions) are supplied by an environment record, one oracle per await
site whose outcome the code branches on.
-/

namespace TimeSenderHub

/-- One row of the `scheduled_files` table. -/
structure FileRow where
  id : Nat
  user_id : Nat
  file_name : String
  file_type : String
  storage_path : String
  recipient_email : String
  scheduled_date : Nat
  access_token : String
  status : String
  error_message : Option String
  sent_at : Option Nat
  email_id : Option String
  updated_at : Nat
deriving DecidableEq

/-- JavaScript `s || fallback` on strings: the empty string is falsy. -/
def jsStr (s fallback : String) : String :=
  if s = "" then fallback else s

/-- JavaScript truthiness of an optional id field (`data?.id`): absent or
empty ids are falsy. -/
def jsId : Option String → Option String
  | none => none
  | some s => if s = "" then none else some s

/-- Substring occurrence over character lists (search target `t`,
scanned list second). -/
def containsSub (t : List Char) : List Char → Bool
  | [] => t.isEmpty
  | c :: l => t.isPrefixOf (c :: l) || containsSub t l

/-- JavaScript `String.prototype.includes`. -/
def strIncludes (s t : String) : Bool :=
  containsSub t.data s.data

/-- The `error` object built by `sendEmail` in
`send-scheduled-file/index.ts` (statusCode, message). -/
structure EmailErr where
  statusCode : Nat
  message : String
deriving DecidableEq

/-- The `{ data, error }` pair returned by `sendEmail`.  The code only
ever reads `emailResult.data?.id`, so `dataId` records exactly that
projection of the `data` object. -/
structure EmailResult where
  dataId : Option String
  error : Option EmailErr
deriving DecidableEq

/-- Outcome of the `fetch` to the Resend API, as distinguished by
`sendEmail` in `send-scheduled-file/index.ts`:
* `ok id` — `res.ok`, response body carries the (optional) id;
* `errWithId id msg` — `!res.ok`, `res.status = 403` and the body still
  carries an id (Resend sometimes delivers despite the error);
* `err statusCode msg` — any other `!res.ok` response;
* `thrown msg` — the fetch (or JSON parse) threw. -/
inductive SendOutcome where
  | ok (id : Option String)
  | errWithId (id : String) (message : String)
  | err (statusCode : Nat) (message : String)
  | thrown (message : String)

/-- Model of `sendEmail` from `send-scheduled-file/index.ts`, lines 322–392:
maps the raw fetch outcome to the `{ data, error }` result the caller
sees.  The `errWithId` case mirrors the special 403-with-id branch; its
guard `data && data.id` means an empty id falls through to the plain
error return. -/
def sendEmail : SendOutcome → EmailResult
  | SendOutcome.ok id => ⟨jsId id, none⟩
  | SendOutcome.errWithId id msg =>
      if id = "" then
        ⟨none, some ⟨403, jsStr msg "Unknown error from Resend API"⟩⟩
      else
        ⟨some id, some ⟨403, jsStr msg "Free tier limitation, but message appears to be sent"⟩⟩
  | SendOutcome.err sc msg => ⟨none, some ⟨sc, jsStr msg "Unknown error from Resend API"⟩⟩
  | SendOutcome.thrown msg => ⟨none, some ⟨500, jsStr msg "Unknown error occurred"⟩⟩

/-- Environment of one `processScheduledFiles` run: the outcome of each
external await the worker branches on, keyed by file id. -/
structure Env where
  /-- the initial select over `scheduled_files` reports an error -/
  selectErr : Bool
  /-- the claim update (`status → processing`) reports an error; the code
  logs it and continues, and the row is left unchanged -/
  claimErr : Nat → Bool
  /-- an exception (e.g. the missing-API-key throw) is raised for this item
  after the claim attempt and before the email result is inspected -/
  throwAt : Nat → Option String
  /-- the Resend API outcome for this item -/
  emailOutcome : Nat → SendOutcome
  /-- the `status → sent` update in the success branch reports an error;
  the code counts the item as failed and the row is left unchanged -/
  sentUpdateErr : Nat → Bool

/-- The due query, lines 80–84: rows with `status = "pending"` and
`scheduled_date <= now`. -/
def listDue (db : List FileRow) (now : Nat) : List FileRow :=
  db.filter (fun r => r.status == "pending" && decide (r.scheduled_date ≤ now))

/-- Row effect of the claim update, lines 105–112: set
`status = "processing"` only where the row still has `status = "pending"`. -/
def claimRow (fid : Nat) (now : Nat) (r : FileRow) : FileRow :=
  if r.id == fid && r.status == "pending" then
    { r with status := "processing", updated_at := now }
  else r

/-- The claim update applied to the table. -/
def claimUpdate (db : List FileRow) (fid : Nat) (now : Nat) : List FileRow :=
  db.map (claimRow fid now)

/-- Status/message determination of the email-error branch,
lines 164–194: start from `message || "Failed to send email"` and
`"failed"`, flip to `"sent"` when the error response still carried an id,
and specialise both for the Resend free-tier 403. -/
def errorDisposition (res : EmailResult) (err : EmailErr) : String × String :=
  let errorMessage := jsStr err.message "Failed to send email"
  let status := if res.dataId.isSome then "sent" else "failed"
  if err.statusCode == 403 && err.message != "" &&
      (strIncludes err.message "can only send" || strIncludes err.message "unverified") then
    if res.dataId.isNone then
      (status, "Resend free tier limitation: Can only send to verified email addresses. Either verify this recipient or upgrade your Resend account.")
    else
      ("sent", "Email delivered, but Resend reported a free tier limitation.")
  else
    (status, errorMessage)

/-- Row effect of the update in the email-error branch, lines 197–215:
always writes `status` and `error_message`, writes `sent_at` only when the
determined status is `"sent"`, and `email_id` only when an id is present. -/
def errorRow (fid : Nat) (status errMsg : String) (dataId : Option String)
    (now : Nat) (r : FileRow) : FileRow :=
  if r.id == fid then
    { r with
        status := status
        error_message := some errMsg
        updated_at := now
        sent_at := if status == "sent" then some now else r.sent_at
        email_id := match dataId with | some i => some i | none => r.email_id }
  else r

/-- The email-error-branch update applied to the table. -/
def errorBranchUpdate (db : List FileRow) (fid : Nat) (status errMsg : String)
    (dataId : Option String) (now : Nat) : List FileRow :=
  db.map (errorRow fid status errMsg dataId now)

/-- Row effect of the success-branch update, lines 236–250:
`status = "sent"`, `sent_at = now`, plus `email_id` when present. -/
def sentRow (fid : Nat) (now : Nat) (dataId : Option String) (r : FileRow) : FileRow :=
  if r.id == fid then
    { r with
        status := "sent"
        sent_at := some now
        updated_at := now
        email_id := match dataId with | some i => some i | none => r.email_id }
  else r

/-- The success-branch update applied to the table. -/
def sentUpdate (db : List FileRow) (fid : Nat) (now : Nat)
    (dataId : Option String) : List FileRow :=
  db.map (sentRow fid now dataId)

/-- Row effect of the catch-branch update, lines 274–281:
`status = "failed"` with the exception message. -/
def catchRow (fid : Nat) (errMsg : String) (now : Nat) (r : FileRow) : FileRow :=
  if r.id == fid then
    { r with status := "failed", error_message := some errMsg, updated_at := now }
  else r

/-- The catch-branch update applied to the table. -/
def catchUpdate (db : List FileRow) (fid : Nat) (errMsg : String)
    (now : Nat) : List FileRow :=
  db.map (catchRow fid errMsg now)

/-- Outcome of processing one item of the due list: the table afterwards,
the success/failed count increments, and the Notifier invocations made
(recipient addresses). -/
structure ItemOutcome where
  db : List FileRow
  success : Nat
  failed : Nat
  notifierCalls : List String
deriving DecidableEq

/-- The body of the per-file loop of `processScheduledFiles`,
lines 100–290, for one listed file `f` (a row as returned by the due
query) against the current table `db`:
1. attempt the pending-guarded claim update (its error, if any, is logged
   and ignored — the code continues either way);
2. if an exception is raised (e.g. missing API key), the catch branch
   marks the row failed with `message || "Unknown error occurred"`;
3. otherwise the email is sent and the result drives either the
   email-error branch or the success branch. -/
def processOne (env : Env) (now : Nat) (db : List FileRow) (f : FileRow) : ItemOutcome :=
  let db1 := if env.claimErr f.id then db else claimUpdate db f.id now
  match env.throwAt f.id with
  | some m =>
      ⟨catchUpdate db1 f.id (jsStr m "Unknown error occurred") now, 0, 1, []⟩
  | none =>
      let res := sendEmail (env.emailOutcome f.id)
      match res.error with
      | some err =>
          let d := errorDisposition res err
          let db2 := errorBranchUpdate db1 f.id d.1 d.2 res.dataId now
          ⟨db2, if d.1 == "sent" then 1 else 0, if d.1 == "sent" then 0 else 1,
            [f.recipient_email]⟩
      | none =>
          if env.sentUpdateErr f.id then
            ⟨db1, 0, 1, [f.recipient_email]⟩
          else
            ⟨sentUpdate db1 f.id now res.dataId, 1, 0, [f.recipient_email]⟩

/-- Accumulated outcome of the per-file loop. -/
structure SweepAcc where
  db : List FileRow
  success : Nat
  failed : Nat
  calls : List String
deriving DecidableEq

/-- The per-file loop of `processScheduledFiles` folded over the due
list, threading the table through. -/
def processList (env : Env) (now : Nat) : List FileRow → List FileRow → SweepAcc
  | db, [] => ⟨db, 0, 0, []⟩
  | db, f :: fs =>
      let o := processOne env now db f
      let rest := processList env now o.db fs
      ⟨rest.db, o.success + rest.success, o.failed + rest.failed,
        o.notifierCalls ++ rest.calls⟩

/-- The `{ success, failed, processed }` result of one sweep. -/
structure SweepResult where
  success : Nat
  failed : Nat
  processed : Nat
deriving DecidableEq

/-- A sweep together with its observable effects: the table afterwards
and the Notifier invocations made. -/
structure SweepOutput where
  result : SweepResult
  db : List FileRow
  notifierCalls : List String
deriving DecidableEq

/-- Model of `processScheduledFiles` from `send-scheduled-file/index.ts`,
lines 66–301: on a select error, log and return zero counts (lines
86–89); on an empty due list, return zero counts (lines 91–94);
otherwise set `processedCount` to the due count and run the per-file
loop.  (The realtime-replication RPC of lines 35–61 touches no
`scheduled_files` row and is not part of the table model; the outer catch
of line 297 is unreachable here because every per-item path is handled
inside the loop.) -/
def processScheduledFiles (env : Env) (now : Nat) (db : List FileRow) : SweepOutput :=
  if env.selectErr then
    ⟨⟨0, 0, 0⟩, db, []⟩
  else
    let due := listDue db now
    if due.isEmpty then
      ⟨⟨0, 0, 0⟩, db, []⟩
    else
      let acc := processList env now db due
      ⟨⟨acc.success, acc.failed, due.length⟩, acc.db, acc.calls⟩

/-- The HTTP handler of `send-scheduled-file/index.ts`, lines 397–427:
`processScheduledFiles` never throws (it catches internally and returns
counts), so the response is always status 200 with the result body. -/
def handleSweepRequest (env : Env) (now : Nat) (db : List FileRow) :
    Nat × SweepResult :=
  (200, (processScheduledFiles env now db).result)

/-- Environment of the client-side operations in
`src/src/services/fileService.ts`: outcome of each awaited call the code
branches on. -/
structure ClientEnv where
  /-- whether `supabase.auth.getUser()` returned a user -/
  userOk : Bool
  /-- the storage upload in `uploadFile` reported an error (thrown) -/
  uploadErr : Bool
  /-- the insert into `scheduled_files` reported an error (thrown) -/
  insertErr : Bool
  /-- the update of `scheduled_files` reported an error (thrown) -/
  updateErr : Bool
  /-- whether `triggerFileSending` throws (network error or non-ok response) -/
  triggerThrows : Bool

/-- Model of `triggerFileSending` from `fileService.ts`, lines 554–629: invokes
the sweep endpoint and rethrows on failure. -/
def triggerFileSending (env : ClientEnv) : Except String Unit :=
  if env.triggerThrows then Except.error "Failed to trigger file sending"
  else Except.ok ()

/-- Model of `scheduleFile` from `fileService.ts`, lines 297–353: authenticate,
upload, insert the new pending row, then — when the scheduled date is
already due (`params.scheduledDate <= now`) — fire `triggerFileSending`,
swallowing any error it throws ("Non-critical error ... don't rethrow").
`newRow` is the inserted row (ids are store-generated).  The returned
flag records whether the immediate trigger was attempted. -/
def scheduleFile (env : ClientEnv) (db : List FileRow) (newRow : FileRow)
    (now : Nat) : Except String (List FileRow × Bool) :=
  if env.userOk = false then Except.error "User not authenticated"
  else if env.uploadErr then Except.error "Failed to upload file"
  else if env.insertErr then Except.error "Failed to schedule file"
  else
    let db1 := db ++ [newRow]
    if newRow.scheduled_date ≤ now then
      match triggerFileSending env with
      | Except.ok _ => Except.ok (db1, true)
      | Except.error _ => Except.ok (db1, true)
    else Except.ok (db1, false)

/-- Row effect of the `updateScheduledFile` write, lines 357–364: set
`recipient_email`, `scheduled_date`, `updated_at` on the row with the
given id — with no condition on the row's status. -/
def ownerUpdateRow (fid : Nat) (recipient : String) (schedDate now : Nat)
    (r : FileRow) : FileRow :=
  if r.id == fid then
    { r with
        recipient_email := recipient
        scheduled_date := schedDate
        updated_at := now }
  else r

/-- The `updateScheduledFile` write applied to the table. -/
def ownerUpdateWrite (db : List FileRow) (fid : Nat) (recipient : String)
    (schedDate now : Nat) : List FileRow :=
  db.map (ownerUpdateRow fid recipient schedDate now)

/-- Model of `updateScheduledFile` from `fileService.ts`, lines 355–387: write the
new recipient and scheduled date by id (throwing on a store error), then
— when the new date is already due — fire `triggerFileSending`,
swallowing any error it throws. -/
def updateScheduledFile (env : ClientEnv) (db : List FileRow) (fid : Nat)
    (recipient : String) (schedDate now : Nat) :
    Except String (List FileRow × Bool) :=
  if env.updateErr then Except.error "Failed to update schedule"
  else
    let db1 := ownerUpdateWrite db fid recipient schedDate now
    if schedDate ≤ now then
      match triggerFileSending env with
      | Except.ok _ => Except.ok (db1, true)
      | Except.error _ => Except.ok (db1, true)
    else Except.ok (db1, false)

/-- Environment of `getFileByToken`: outcomes of the signed-URL creation
and of the status update (whose error the code logs and tolerates). -/
structure TokenEnv where
  urlOk : Bool
  signedUrl : String
  updateErr : Bool

/-- Row effect of the access-page update, lines 504–510: `status = "sent"`
and `sent_at = now` on the row with the given id. -/
def tokenAccessRow (fid : Nat) (now : Nat) (r : FileRow) : FileRow :=
  if r.id == fid then
    { r with status := "sent", sent_at := some now }
  else r

/-- The access-page update applied to the table. -/
def tokenAccessUpdate (db : List FileRow) (fid : Nat) (now : Nat) : List FileRow :=
  db.map (tokenAccessRow fid now)

/-- Model of `getFileByToken` from `fileService.ts`, lines 467–533: select the
single row with the given access token (`.single()` errors unless exactly
one row matches), create a signed URL regardless of status (returning
`null` if that fails), then — if the row is still pending — update it to
sent with `sent_at = now` (tolerating an update error), and return the
file name, file type and signed URL. -/
def getFileByToken (env : TokenEnv) (now : Nat) (db : List FileRow)
    (token : String) : Option (String × String × String) × List FileRow :=
  match db.filter (fun r => r.access_token == token) with
  | [data] =>
      if env.urlOk = false then (none, db)
      else
        let db1 :=
          if data.status == "pending" then
            if env.updateErr then db else tokenAccessUpdate db data.id now
          else db
        (some (data.file_name, data.file_type, env.signedUrl), db1)
  | _ => (none, db)

/-- Environment of one cron-scheduler `processFile` call. -/
structure CronEnv where
  /-- whether `sendEmail` (the cron variant returning a boolean) succeeded -/
  emailSent : Nat → Bool
  /-- an exception was raised while processing this item -/
  cronThrow : Nat → Bool

/-- Model of `updateFileStatus` from `cron-scheduler/index.ts`, lines 181–193:
write only the `status` column of the row with the given id. -/
def updateFileStatus (db : List FileRow) (fid : Nat) (status : String) :
    List FileRow :=
  db.map (fun r => if r.id == fid then { r with status := status } else r)

/-- Model of `processFile` from `cron-scheduler/index.ts`, lines 198–253: send the
email (no claim beforehand) and record the outcome via `updateFileStatus`
— `"sent"` on success, `"failed"` on send failure or exception.  Returns
the table afterwards and the per-item success flag. -/
def processFile (env : CronEnv) (db : List FileRow) (f : FileRow) :
    List FileRow × Bool :=
  if env.cronThrow f.id then
    (updateFileStatus db f.id "failed", false)
  else if env.emailSent f.id then
    (updateFileStatus db f.id "sent", true)
  else
    (updateFileStatus db f.id "failed", false)

/-! Proof infrastructure: the table after one worker iteration is a
single `List.map` of a per-row function, because every supabase update is
itself a map over the table. -/

/-- The combined per-row effect of one `processOne` iteration for item
`f`: the claim patch followed by the terminal patch of whichever branch
the environment selects. -/
def itemWrite (env : Env) (now : Nat) (f : FileRow) (r : FileRow) : FileRow :=
  let r1 := if env.claimErr f.id then r else claimRow f.id now r
  match env.throwAt f.id with
  | some m => catchRow f.id (jsStr m "Unknown error occurred") now r1
  | none =>
      let res := sendEmail (env.emailOutcome f.id)
      match res.error with
      | some err =>
          let d := errorDisposition res err
          errorRow f.id d.1 d.2 res.dataId now r1
      | none =>
          if env.sentUpdateErr f.id then r1
          else sentRow f.id now res.dataId r1

/-- The combined per-row effect of the whole per-file loop, item by item. -/
def listWrite (env : Env) (now : Nat) : List FileRow → FileRow → FileRow
  | [], r => r
  | f :: fs, r => listWrite env now fs (itemWrite env now f r)

/-- The convergent spec invariant of one row: `sent_at` is present iff
`status = sent`. -/
def rowInv (r : FileRow) : Prop :=
  r.sent_at.isSome = (r.status == "sent")

/-! Concrete fixtures used by witnesses and counterexamples. -/

/-- A pending item already due at time 100. -/
def rowD : FileRow :=
  { id := 1, user_id := 7, file_name := "d.pdf", file_type := "application/pdf",
    storage_path := "7/d.pdf", recipient_email := "r@example.com",
    scheduled_date := 50, access_token := "tok-d", status := "pending",
    error_message := none, sent_at := none, email_id := none, updated_at := 10 }

/-- A second pending due item with a distinct id and token. -/
def rowE : FileRow :=
  { rowD with id := 2, recipient_email := "s@example.com", access_token := "tok-e" }

/-- A fault-free sweep environment whose email sends succeed. -/
def envOk : Env :=
  { selectErr := false, claimErr := fun _ => false, throwAt := fun _ => none,
    emailOutcome := fun _ => SendOutcome.ok (some "em-1"),
    sentUpdateErr := fun _ => false }

/-- The row `rowD` as it stands in the store after a concurrent sweep claimed it. -/
def rowDClaimed : FileRow := { rowD with status := "processing" }

/-- The row `rowD` already delivered. -/
def rowSent : FileRow := { rowD with status := "sent" }

/-- Sweep environment whose Resend call is rejected with a 403 that still
carries a message id. -/
def envRejId : Env :=
  { envOk with emailOutcome := fun _ => SendOutcome.errWithId "em-2" "boom" }

/-- Sweep environment whose Resend call is rejected outright. -/
def envRej : Env :=
  { envOk with emailOutcome := fun _ => SendOutcome.err 422 "bad address" }

/-- Sweep environment whose initial select fails. -/
def envSelFx : Env := { envOk with selectErr := true }

/-- Sweep environment in which processing item 1 raises an exception. -/
def envThrowFx : Env :=
  { envOk with throwAt := fun i => if i == 1 then some "kaboom" else none }

/-- Cron environment whose email send succeeds. -/
def cronEnvOk : CronEnv :=
  { emailSent := fun _ => true, cronThrow := fun _ => false }

/-- Token-access environment with a working signed URL and store. -/
def tokenEnvFx : TokenEnv :=
  { urlOk := true, signedUrl := "https://signed/x", updateErr := false }

/-- Client environment whose store calls succeed but whose immediate
sweep trigger throws. -/
def clientEnvFx : ClientEnv :=
  { userOk := true, uploadErr := false, insertErr := false, updateErr := false,
    triggerThrows := true }

/-- The row `rowD` as the fault-free sweep leaves it. -/
def rowDSent : FileRow :=
  { rowD with
      status := "sent"
      sent_at := some 100
      updated_at := 100
      email_id := some "em-1" }

/-- The row `rowD` after the rejected-with-id send of `envRejId`. -/
def rowDSentDespiteErr : FileRow :=
  { rowD with
      status := "sent"
      sent_at := some 100
      updated_at := 100
      error_message := some "boom"
      email_id := some "em-2" }

/-- The row `rowD` after the plainly rejected send of `envRej`. -/
def rowDRejFailed : FileRow :=
  { rowD with
      status := "failed"
      error_message := some "bad address"
      updated_at := 100 }

/-- The sent row after an owner edit of recipient and date. -/
def rowSentEdited : FileRow :=
  { rowSent with
      recipient_email := "new@example.com"
      scheduled_date := 5
      updated_at := 100 }

/-- The row `rowD` after a token access at time 100. -/
def rowDTokenSent : FileRow :=
  { rowD with status := "sent", sent_at := some 100 }

/-- The row `rowD` after the exception of `envThrowFx` is caught. -/
def rowDThrowFailed : FileRow :=
  { rowD with
      status := "failed"
      error_message := some "kaboom"
      updated_at := 100 }

/-- The row `rowD` once the cron path has marked it sent (no `sent_at`). -/
def rowDCronSent : FileRow :=
  { rowD with status := "sent" }

theorem claimRow_id (fid now : Nat) (r : FileRow) : (claimRow fid now r).id = r.id := by
  unfold claimRow; split <;> rfl

theorem errorRow_id (fid : Nat) (st em : String) (d : Option String) (now : Nat)
    (r : FileRow) : (errorRow fid st em d now r).id = r.id := by
  unfold errorRow; split <;> rfl

theorem sentRow_id (fid now : Nat) (d : Option String) (r : FileRow) :
    (sentRow fid now d r).id = r.id := by
  unfold sentRow; split <;> rfl

theorem catchRow_id (fid : Nat) (em : String) (now : Nat) (r : FileRow) :
    (catchRow fid em now r).id = r.id := by
  unfold catchRow; split <;> rfl

theorem itemWrite_id (env : Env) (now : Nat) (f r : FileRow) :
    (itemWrite env now f r).id = r.id := by
  unfold itemWrite
  cases env.throwAt f.id <;>
    cases he : (sendEmail (env.emailOutcome f.id)).error <;>
      cases env.claimErr f.id <;>
        cases env.sentUpdateErr f.id <;>
          simp [he, catchRow_id, errorRow_id, sentRow_id, claimRow_id]

theorem claimRow_skip (fid now : Nat) (r : FileRow) (h : r.id ≠ fid) :
    claimRow fid now r = r := by
  unfold claimRow
  simp [beq_eq_false_iff_ne.mpr h]

theorem errorRow_skip (fid : Nat) (st em : String) (d : Option String) (now : Nat)
    (r : FileRow) (h : r.id ≠ fid) : errorRow fid st em d now r = r := by
  unfold errorRow
  simp [beq_eq_false_iff_ne.mpr h]

theorem sentRow_skip (fid now : Nat) (d : Option String) (r : FileRow)
    (h : r.id ≠ fid) : sentRow fid now d r = r := by
  unfold sentRow
  simp [beq_eq_false_iff_ne.mpr h]

theorem catchRow_skip (fid : Nat) (em : String) (now : Nat) (r : FileRow)
    (h : r.id ≠ fid) : catchRow fid em now r = r := by
  unfold catchRow
  simp [beq_eq_false_iff_ne.mpr h]

theorem itemWrite_skip (env : Env) (now : Nat) (f r : FileRow) (h : r.id ≠ f.id) :
    itemWrite env now f r = r := by
  unfold itemWrite
  cases env.throwAt f.id <;>
    cases he : (sendEmail (env.emailOutcome f.id)).error <;>
      cases env.claimErr f.id <;>
        cases env.sentUpdateErr f.id <;>
          simp [he, claimRow_skip _ _ _ h, errorRow_skip _ _ _ _ _ _ h,
            sentRow_skip _ _ _ _ h, catchRow_skip _ _ _ _ h]

theorem processOne_db_eq (env : Env) (now : Nat) (db : List FileRow) (f : FileRow) :
    (processOne env now db f).db = db.map (itemWrite env now f) := by
  unfold processOne itemWrite claimUpdate catchUpdate errorBranchUpdate sentUpdate
  cases env.throwAt f.id <;>
    cases he : (sendEmail (env.emailOutcome f.id)).error <;>
      cases env.claimErr f.id <;>
        cases env.sentUpdateErr f.id <;>
          simp [he, List.map_map, Function.comp]

theorem listWrite_id (env : Env) (now : Nat) (fs : List FileRow) (r : FileRow) :
    (listWrite env now fs r).id = r.id := by
  induction fs generalizing r with
  | nil => rfl
  | cons f fs ih => rw [listWrite, ih, itemWrite_id]

theorem listWrite_skip (env : Env) (now : Nat) (fs : List FileRow) (r : FileRow)
    (h : ∀ f ∈ fs, r.id ≠ f.id) : listWrite env now fs r = r := by
  induction fs with
  | nil => rfl
  | cons f fs ih =>
      rw [listWrite, itemWrite_skip env now f r (h f (by simp))]
      exact ih (fun g hg => h g (by simp [hg]))

theorem listWrite_append (env : Env) (now : Nat) (s t : List FileRow) (r : FileRow) :
    listWrite env now (s ++ t) r = listWrite env now t (listWrite env now s r) := by
  induction s generalizing r with
  | nil => rfl
  | cons f s ih => rw [List.cons_append, listWrite, listWrite, ih]

theorem processList_db_eq (env : Env) (now : Nat) (db fs : List FileRow) :
    (processList env now db fs).db = db.map (listWrite env now fs) := by
  induction fs generalizing db with
  | nil => simp [processList, listWrite]
  | cons f fs ih =>
      rw [processList]
      show (processList env now (processOne env now db f).db fs).db = _
      rw [ih, processOne_db_eq, List.map_map]
      rfl

theorem processOne_success_failed (env : Env) (now : Nat) (db : List FileRow)
    (f : FileRow) :
    (processOne env now db f).success + (processOne env now db f).failed = 1 := by
  unfold processOne
  cases env.throwAt f.id <;>
    cases he : (sendEmail (env.emailOutcome f.id)).error <;>
      cases env.claimErr f.id <;>
        cases env.sentUpdateErr f.id <;>
          simp [he] <;> split <;> simp

theorem processList_counts (env : Env) (now : Nat) (db fs : List FileRow) :
    (processList env now db fs).success + (processList env now db fs).failed
      = fs.length := by
  induction fs generalizing db with
  | nil => rfl
  | cons f fs ih =>
      rw [processList]
      show (processOne env now db f).success + _ +
        ((processOne env now db f).failed + _) = _
      have h1 := processOne_success_failed env now db f
      have h2 := ih (processOne env now db f).db
      simp only [List.length_cons]
      omega

theorem errorDisposition_fst (res : EmailResult) (err : EmailErr) :
    (errorDisposition res err).1
      = if res.dataId.isSome then "sent" else "failed" := by
  unfold errorDisposition
  cases hd : res.dataId <;> simp [hd] <;> split <;> simp

theorem itemWrite_throw (env : Env) (now : Nat) (f r : FileRow) (m : String)
    (ht : env.throwAt f.id = some m) (hid : r.id = f.id) :
    (itemWrite env now f r).status = "failed"
    ∧ (itemWrite env now f r).error_message
        = some (jsStr m "Unknown error occurred") := by
  unfold itemWrite
  rw [ht]
  have h1 : (claimRow f.id now r).id = f.id := by rw [claimRow_id, hid]
  cases hc : env.claimErr f.id <;>
    simp [catchRow, h1, hid]

theorem itemWrite_error (env : Env) (now : Nat) (f r : FileRow) (e : EmailErr)
    (ht : env.throwAt f.id = none)
    (he : (sendEmail (env.emailOutcome f.id)).error = some e)
    (hid : r.id = f.id) :
    (itemWrite env now f r).error_message.isSome
    ∧ (itemWrite env now f r).status
        = (if (sendEmail (env.emailOutcome f.id)).dataId.isSome
            then "sent" else "failed") := by
  unfold itemWrite
  rw [ht]
  have h1 : (claimRow f.id now r).id = f.id := by rw [claimRow_id, hid]
  cases hc : env.claimErr f.id <;>
    simp [he, errorRow, h1, hid, errorDisposition_fst]

theorem claimRow_status_nonpending (fid now : Nat) (r : FileRow) (hid : r.id = fid) :
    (claimRow fid now r).status ≠ "pending" := by
  unfold claimRow
  by_cases hs : r.status = "pending"
  · simp [hid, hs]
  · simp [hid, hs]

theorem itemWrite_nonpending (env : Env) (now : Nat) (f r : FileRow)
    (hc : env.claimErr f.id = false) (hid : r.id = f.id) :
    (itemWrite env now f r).status ≠ "pending" := by
  unfold itemWrite
  rw [hc]
  have h1 : (claimRow f.id now r).id = f.id := by rw [claimRow_id, hid]
  have h2 := claimRow_status_nonpending f.id now r hid
  cases ht : env.throwAt f.id <;>
    cases he : (sendEmail (env.emailOutcome f.id)).error <;>
      cases hs : env.sentUpdateErr f.id <;>
        simp [he, catchRow, errorRow, sentRow, h1, h2, errorDisposition_fst] <;>
          (try split) <;> simp [h2]

theorem itemWrite_status_cases (env : Env) (now : Nat) (f r : FileRow) :
    (itemWrite env now f r).status = r.status
    ∨ (itemWrite env now f r).status = "processing"
    ∨ (itemWrite env now f r).status = "sent"
    ∨ (itemWrite env now f r).status = "failed" := by
  unfold itemWrite claimRow catchRow errorRow sentRow
  cases ht : env.throwAt f.id <;>
    cases he : (sendEmail (env.emailOutcome f.id)).error <;>
      cases hc : env.claimErr f.id <;>
        cases hs : env.sentUpdateErr f.id <;>
          simp [he, errorDisposition_fst] <;>
            (try split) <;> (try split) <;> (try split) <;> simp

theorem listWrite_nonpending (env : Env) (now : Nat) (fs : List FileRow)
    (r : FileRow) (h : r.status ≠ "pending") :
    (listWrite env now fs r).status ≠ "pending" := by
  induction fs generalizing r with
  | nil => exact h
  | cons f fs ih =>
      rw [listWrite]
      apply ih
      rcases itemWrite_status_cases env now f r with h1 | h1 | h1 | h1 <;>
        rw [h1] <;> simp [h]

theorem listWrite_cases (env : Env) (now : Nat) (fs : List FileRow) (r : FileRow)
    (hclaim : ∀ f ∈ fs, env.claimErr f.id = false) :
    (listWrite env now fs r).status ≠ "pending"
    ∨ (listWrite env now fs r = r ∧ ∀ f ∈ fs, r.id ≠ f.id) := by
  induction fs with
  | nil => exact Or.inr ⟨rfl, by simp⟩
  | cons f fs ih =>
      rw [listWrite]
      by_cases hid : r.id = f.id
      · left
        apply listWrite_nonpending
        exact itemWrite_nonpending env now f r (hclaim f (by simp)) hid
      · rw [itemWrite_skip env now f r hid]
        rcases ih (fun g hg => hclaim g (by simp [hg])) with h | ⟨h1, h2⟩
        · exact Or.inl h
        · exact Or.inr ⟨h1, by
            intro g hg
            rcases List.mem_cons.mp hg with hgf | hgfs
            · rw [hgf]; exact hid
            · exact h2 g hgfs⟩

theorem tokenAccessRow_id (fid now : Nat) (r : FileRow) :
    (tokenAccessRow fid now r).id = r.id := by
  unfold tokenAccessRow; split <;> rfl

theorem ownerUpdateRow_id (fid : Nat) (recipient : String) (schedDate now : Nat)
    (r : FileRow) : (ownerUpdateRow fid recipient schedDate now r).id = r.id := by
  unfold ownerUpdateRow; split <;> rfl

/-! Claim theorems. -/

/-- C9: a pending row of the table is in the due query exactly when its
`scheduled_date` is less than or equal to `now` — the comparison is `≤`,
not `<`, so a row whose `scheduled_date` equals `now` is included. -/
theorem c9_listDue_iff (db : List FileRow) (now : Nat) (r : FileRow)
    (hmem : r ∈ db) (hst : r.status = "pending") :
    r ∈ listDue db now ↔ r.scheduled_date ≤ now := by
  simp [listDue, List.mem_filter, hmem, hst]

/-- Witness for C9 at the boundary case `scheduled_date = now`. -/
theorem c9_witness : rowD ∈ listDue [rowD] 50 :=
  (c9_listDue_iff [rowD] 50 rowD (by decide) (by decide)).mpr (by decide)

/-- C5 counterexample: the table holds a due item, the select fails, and
the handler still answers HTTP 200 with the successful zero-count result
`{success 0, failed 0, processed 0}` — no sweep-level error is surfaced. -/
theorem c5_counterexample :
    handleSweepRequest envSelFx 100 [rowD] = (200, ⟨0, 0, 0⟩)
    ∧ listDue [rowD] 100 = [rowD] := by
  exact ⟨rfl, rfl⟩

/-- C5 amended: when the initial due query fails, the sweep does not
abort with a sweep-level error; it logs the failure and returns the same
successful zero-count result (HTTP 200, all counts zero) as when no items
are due, touching no row and invoking no Notifier. -/
theorem c5_selectError_zeroes (env : Env) (now : Nat) (db : List FileRow)
    (h : env.selectErr = true) :
    handleSweepRequest env now db = (200, ⟨0, 0, 0⟩)
    ∧ (processScheduledFiles env now db).db = db
    ∧ (processScheduledFiles env now db).notifierCalls = [] := by
  unfold handleSweepRequest processScheduledFiles
  simp [h]

/-- Witness for C5 (amended) on a two-item table. -/
theorem c5_witness :
    handleSweepRequest envSelFx 100 [rowD, rowE] = (200, ⟨0, 0, 0⟩) :=
  (c5_selectError_zeroes envSelFx 100 [rowD, rowE] rfl).1

/-- C1 (code bug): item 1 was already claimed by a concurrent sweep (its
store row has status `processing`), so the pending-guarded claim update
matches no row — the claim fails — yet the worker, holding a stale
pending listing of the item, still invokes the Notifier instead of
stopping. -/
theorem c1_sends_despite_failed_claim :
    claimUpdate [rowDClaimed] rowD.id 100 = [rowDClaimed]
    ∧ (processOne envOk 100 [rowDClaimed] rowD).notifierCalls
        = ["r@example.com"] := by
  exact ⟨rfl, rfl⟩

/-- C7 counterexample: `updateScheduledFile` rewrites the recipient and
scheduled date of an item whose status is `sent` — the edit is not
restricted to pending items. -/
theorem c7_counterexample :
    updateScheduledFile clientEnvFx [rowSent] 1 "new@example.com" 5 100
      = Except.ok ([rowSentEdited], true)
    ∧ rowSentEdited ≠ rowSent := by
  refine ⟨rfl, ?_⟩
  decide

/-- C7 amended: the owner update writes the new recipient and scheduled
date to every row with the given id regardless of the row's status; no
pending-only guard is enforced by the operation. -/
theorem c7_update_unconditional (env : ClientEnv) (db : List FileRow)
    (fid : Nat) (recipient : String) (schedDate now : Nat)
    (db1 : List FileRow) (trig : Bool)
    (h : env.updateErr = false)
    (heq : updateScheduledFile env db fid recipient schedDate now
        = Except.ok (db1, trig)) :
    ∀ r' ∈ db1, r'.id = fid →
      r'.recipient_email = recipient ∧ r'.scheduled_date = schedDate := by
  unfold updateScheduledFile at heq
  rw [h] at heq
  simp only [Bool.false_eq_true, if_false] at heq
  have hdb : db1 = ownerUpdateWrite db fid recipient schedDate now := by
    rcases hi : decide (schedDate ≤ now) with _ | _ <;>
      rcases hth : env.triggerThrows with _ | _ <;>
        simp [triggerFileSending, hth, of_decide_eq_false, of_decide_eq_true,
          hi] at heq <;>
        exact heq.1.symm
  subst hdb
  intro r' hr' hid
  rcases List.mem_map.mp hr' with ⟨x, hx, rfl⟩
  have hid2 : x.id = fid := by rw [← ownerUpdateRow_id fid recipient schedDate now x]; exact hid
  unfold ownerUpdateRow
  simp [hid2]

/-- Witness for C7 (amended) on the sent row edited in the
counterexample's scenario. -/
theorem c7_witness :
    rowSentEdited.recipient_email = "new@example.com"
    ∧ rowSentEdited.scheduled_date = 5 :=
  c7_update_unconditional clientEnvFx [rowSent] 1 "new@example.com" 5 100
    [rowSentEdited] true rfl rfl rowSentEdited (by decide) (by decide)

/-- C10: when the scheduled date is not after `now`, a successful
`scheduleFile` insert and a successful `updateScheduledFile` write are
each followed by an immediate sweep trigger, and the operation reports
success whether or not that trigger throws (the error is swallowed) — the
statement is proved for every environment, in particular those whose
trigger throws. -/
theorem c10_immediate_trigger (env : ClientEnv) (db : List FileRow)
    (newRow : FileRow) (fid : Nat) (recipient : String) (schedDate now : Nat) :
    (env.userOk = true → env.uploadErr = false → env.insertErr = false →
      newRow.scheduled_date ≤ now →
      scheduleFile env db newRow now = Except.ok (db ++ [newRow], true))
    ∧ (env.updateErr = false → schedDate ≤ now →
      updateScheduledFile env db fid recipient schedDate now
        = Except.ok (ownerUpdateWrite db fid recipient schedDate now, true)) := by
  constructor
  · intro h1 h2 h3 h4
    unfold scheduleFile triggerFileSending
    cases ht : env.triggerThrows <;> simp [h1, h2, h3, h4, ht]
  · intro h1 h2
    unfold updateScheduledFile triggerFileSending
    cases ht : env.triggerThrows <;> simp [h1, h2, ht]

/-- Witness for C10 in an environment whose immediate trigger throws. -/
theorem c10_witness :
    scheduleFile clientEnvFx [] rowD 100 = Except.ok ([rowD], true)
    ∧ updateScheduledFile clientEnvFx [rowD] 1 "t@example.com" 50 100
        = Except.ok (ownerUpdateWrite [rowD] 1 "t@example.com" 50 100, true) :=
  ⟨(c10_immediate_trigger clientEnvFx [] rowD 1 "t@example.com" 50 100).1
      rfl rfl rfl (by decide),
   (c10_immediate_trigger clientEnvFx [rowD] rowD 1 "t@example.com" 50 100).2
      rfl (by decide)⟩

/-- C2 counterexample: a rejected send (the Resend call errors with a
403 that still carries a message id) leaves the item with status `sent` —
not `failed` — with the rejection reason recorded. -/
theorem c2_counterexample :
    (sendEmail (SendOutcome.errWithId "em-2" "boom")).error.isSome = true
    ∧ (processOne envRejId 100 [rowD] rowD).db = [rowDSentDespiteErr] := by
  exact ⟨rfl, by decide⟩

/-- C2 amended: for every item whose Notifier call is rejected, the sweep
records a rejection reason in `error_message`; the item is marked
`failed` when the rejection carries no provider message id, but `sent`
when it does (the code treats an id in the error response as evidence of
delivery). -/
theorem c2_rejection_amended (env : Env) (now : Nat) (db : List FileRow)
    (f : FileRow) (e : EmailErr)
    (ht : env.throwAt f.id = none)
    (he : (sendEmail (env.emailOutcome f.id)).error = some e) :
    ∀ r' ∈ (processOne env now db f).db, r'.id = f.id →
      r'.error_message.isSome
      ∧ r'.status = (if (sendEmail (env.emailOutcome f.id)).dataId.isSome
          then "sent" else "failed") := by
  intro r' hr' hid
  rw [processOne_db_eq] at hr'
  rcases List.mem_map.mp hr' with ⟨r, hr, rfl⟩
  have hid2 : r.id = f.id := by rw [← itemWrite_id env now f r]; exact hid
  exact itemWrite_error env now f r e ht he hid2

/-- Witness for C2 (amended) on an ordinary rejection without an id. -/
theorem c2_witness :
    rowDRejFailed.error_message.isSome
    ∧ rowDRejFailed.status
        = (if (sendEmail (envRej.emailOutcome rowD.id)).dataId.isSome
            then "sent" else "failed") :=
  c2_rejection_amended envRej 100 [rowD] rowD ⟨422, "bad address"⟩ rfl rfl
    rowDRejFailed (by decide) (by decide)

/-- C4: looking up an existing, uniquely matching item by its access
token while it is still pending returns the file name, file type and the
signed URL, and transitions the item to status `sent` with `sent_at` set
to the access time (given the signed-URL creation and the status write
succeed). -/
theorem c4_getFileByToken (tenv : TokenEnv) (now : Nat) (db : List FileRow)
    (token : String) (r : FileRow)
    (hfil : db.filter (fun x => x.access_token == token) = [r])
    (hst : r.status = "pending") (hurl : tenv.urlOk = true)
    (hupd : tenv.updateErr = false) :
    (getFileByToken tenv now db token).1
        = some (r.file_name, r.file_type, tenv.signedUrl)
    ∧ ∀ r' ∈ (getFileByToken tenv now db token).2, r'.id = r.id →
        r'.status = "sent" ∧ r'.sent_at = some now := by
  unfold getFileByToken
  rw [hfil]
  simp only [hurl, hupd, hst]
  constructor
  · simp
  · simp only [Bool.false_eq_true, if_false, beq_self_eq_true, if_true]
    intro r' hr' hid
    rcases List.mem_map.mp hr' with ⟨x, hx, rfl⟩
    have hid2 : x.id = r.id := by rw [← tokenAccessRow_id r.id now x]; exact hid
    unfold tokenAccessRow
    simp [hid2]

/-- Witness for C4 on the due pending fixture row. -/
theorem c4_witness :
    (getFileByToken tokenEnvFx 100 [rowD] "tok-d").1
        = some (rowD.file_name, rowD.file_type, tokenEnvFx.signedUrl)
    ∧ rowDTokenSent.status = "sent" ∧ rowDTokenSent.sent_at = some 100 :=
  ⟨(c4_getFileByToken tokenEnvFx 100 [rowD] "tok-d" rowD (by decide) (by decide)
      (by decide) (by decide)).1,
   (c4_getFileByToken tokenEnvFx 100 [rowD] "tok-d" rowD (by decide) (by decide)
      (by decide) (by decide)).2 rowDTokenSent (by decide) (by decide)⟩

theorem rowInv_of_none (r : FileRow) (hsa : r.sent_at = none)
    (hst : r.status ≠ "sent") : rowInv r := by
  unfold rowInv
  simp [hsa, beq_eq_false_iff_ne.mpr hst]

theorem claimRow_sent_at (fid now : Nat) (r : FileRow) :
    (claimRow fid now r).sent_at = r.sent_at := by
  unfold claimRow; split <;> rfl

theorem claimRow_status_ne_sent (fid now : Nat) (r : FileRow)
    (h : r.status = "pending") : (claimRow fid now r).status ≠ "sent" := by
  unfold claimRow; split <;> simp [h]

theorem catchRow_inv (fid : Nat) (em : String) (now : Nat) (r : FileRow)
    (hsa : r.sent_at = none) (hst : r.status ≠ "sent") :
    rowInv (catchRow fid em now r) := by
  unfold catchRow rowInv
  split <;> simp [hsa, beq_eq_false_iff_ne.mpr hst]

theorem errorRow_inv (fid : Nat) (st em : String) (d : Option String)
    (now : Nat) (r : FileRow) (hsa : r.sent_at = none) (hst : r.status ≠ "sent") :
    rowInv (errorRow fid st em d now r) := by
  unfold errorRow rowInv
  split
  · cases hs : (st == "sent") <;> simp [hs, hsa]
  · simp [hsa, beq_eq_false_iff_ne.mpr hst]

theorem sentRow_inv (fid now : Nat) (d : Option String) (r : FileRow)
    (hsa : r.sent_at = none) (hst : r.status ≠ "sent") :
    rowInv (sentRow fid now d r) := by
  unfold sentRow rowInv
  split <;> simp [hsa, beq_eq_false_iff_ne.mpr hst]

theorem tokenAccessRow_inv (fid now : Nat) (r : FileRow) (h : rowInv r) :
    rowInv (tokenAccessRow fid now r) := by
  unfold tokenAccessRow rowInv at *
  split <;> simp [h]

theorem itemWrite_inv (env : Env) (now : Nat) (f r : FileRow)
    (hst : r.status = "pending") (hsa : r.sent_at = none) :
    rowInv (itemWrite env now f r) := by
  have h1 : (claimRow f.id now r).sent_at = none := by
    rw [claimRow_sent_at]; exact hsa
  have h2 : (claimRow f.id now r).status ≠ "sent" :=
    claimRow_status_ne_sent f.id now r hst
  have h3 : r.status ≠ "sent" := by rw [hst]; simp
  unfold itemWrite
  cases hc : env.claimErr f.id <;>
    cases ht : env.throwAt f.id <;>
      cases he : (sendEmail (env.emailOutcome f.id)).error <;>
        cases hs : env.sentUpdateErr f.id <;>
          simp only [he, Bool.false_eq_true, if_false, if_true] <;>
          first
          | exact catchRow_inv _ _ _ _ h1 h2
          | exact catchRow_inv _ _ _ _ hsa h3
          | exact errorRow_inv _ _ _ _ _ _ h1 h2
          | exact errorRow_inv _ _ _ _ _ _ hsa h3
          | exact sentRow_inv _ _ _ _ h1 h2
          | exact sentRow_inv _ _ _ _ hsa h3
          | exact rowInv_of_none _ h1 h2
          | exact rowInv_of_none _ hsa h3

/-- C3 counterexample: the cron path is reachable (its email send
succeeds on a pending due item) and marks the item `sent` while leaving
`sent_at` empty — an operation that transitions to `sent` without setting
`sent_at`, breaking the if-and-only-if invariant permanently. -/
theorem c3_counterexample :
    processFile cronEnvOk [rowD] rowD = ([rowDCronSent], true)
    ∧ rowDCronSent.status = "sent"
    ∧ rowDCronSent.sent_at = none
    ∧ ¬ rowInv rowDCronSent := by
  refine ⟨rfl, rfl, rfl, ?_⟩
  unfold rowInv
  decide

/-- C3 amended: the `sent_at` ⟺ `sent` invariant is maintained by the
send-scheduled-file worker (for the rows it processes: every branch that
sets status `sent` also sets `sent_at`, and no branch sets `sent_at`
otherwise) and by `getFileByToken`; but cron-scheduler's
`updateFileStatus` marks rows `sent` without `sent_at`, so items
delivered through the cron path violate the invariant. -/
theorem c3_sentAt_invariant :
    (∀ (env : Env) (now : Nat) (db : List FileRow) (f : FileRow),
        (∀ r ∈ db, r.id = f.id → r.status = "pending" ∧ r.sent_at = none) →
        ∀ r' ∈ (processOne env now db f).db, r'.id = f.id → rowInv r')
    ∧ ∀ (tenv : TokenEnv) (now : Nat) (db : List FileRow) (token : String),
        (∀ r ∈ db, rowInv r) →
        ∀ r' ∈ (getFileByToken tenv now db token).2, rowInv r' := by
  constructor
  · intro env now db f hdb r' hr' hid
    rw [processOne_db_eq] at hr'
    rcases List.mem_map.mp hr' with ⟨r, hr, rfl⟩
    have hid2 : r.id = f.id := by rw [← itemWrite_id env now f r]; exact hid
    rcases hdb r hr hid2 with ⟨hst, hsa⟩
    exact itemWrite_inv env now f r hst hsa
  · intro tenv now db token hdb r' hr'
    unfold getFileByToken at hr'
    rcases hfil : db.filter (fun r => r.access_token == token) with _ | ⟨a, tl⟩
    · rw [hfil] at hr'; exact hdb r' hr'
    · rcases tl with _ | ⟨b, tl2⟩
      · rw [hfil] at hr'
        by_cases hurl : tenv.urlOk = false
        · simp only [hurl, if_true] at hr'
          exact hdb r' hr'
        · by_cases hst : (a.status == "pending") = true
          · by_cases hupd : tenv.updateErr = true
            · simp only [hurl, hst, hupd, if_false, if_true] at hr'
              exact hdb r' hr'
            · simp only [hurl, hst, hupd, if_false, if_true,
                Bool.not_eq_true, tokenAccessUpdate] at hr'
              rcases List.mem_map.mp hr' with ⟨x, hx, rfl⟩
              exact tokenAccessRow_inv _ _ _ (hdb x hx)
          · simp only [hurl, hst, if_false] at hr'
            exact hdb r' hr'
      · rw [hfil] at hr'; exact hdb r' hr'

/-- Witness for C3 (amended): the row delivered by a fault-free worker
run satisfies the invariant. -/
theorem c3_witness : rowInv rowDSent :=
  c3_sentAt_invariant.1 envOk 100 [rowD] rowD (by decide) rowDSent
    (by decide) (by decide)

theorem sweep_unfold_nonempty (env : Env) (now : Nat) (db : List FileRow)
    (hsel : env.selectErr = false)
    (hne : (listDue db now).isEmpty = false) :
    processScheduledFiles env now db
      = ⟨⟨(processList env now db (listDue db now)).success,
          (processList env now db (listDue db now)).failed,
          (listDue db now).length⟩,
        (processList env now db (listDue db now)).db,
        (processList env now db (listDue db now)).calls⟩ := by
  unfold processScheduledFiles
  simp [hsel, hne]

/-- C6: an unexpected per-item exception is caught — the item is marked
`failed` with the exception's message recorded — and the sweep still
processes the whole due list: `processed` equals the due count, and every
due item contributes exactly one success-or-failure outcome. -/
theorem c6_exception_isolated (env : Env) (now : Nat) (db : List FileRow)
    (f : FileRow) (m : String)
    (hsel : env.selectErr = false)
    (hnodup : (db.map (fun r => r.id)).Nodup)
    (hf : f ∈ listDue db now)
    (ht : env.throwAt f.id = some m) (hm : m ≠ "") :
    (∀ r' ∈ (processScheduledFiles env now db).db, r'.id = f.id →
        r'.status = "failed" ∧ r'.error_message = some m)
    ∧ (processScheduledFiles env now db).result.processed
        = (listDue db now).length
    ∧ (processScheduledFiles env now db).result.success
        + (processScheduledFiles env now db).result.failed
        = (listDue db now).length := by
  have hne : (listDue db now).isEmpty = false := by
    cases hd : listDue db now with
    | nil => rw [hd] at hf; exact absurd hf (by simp)
    | cons a l => simp
  rw [sweep_unfold_nonempty env now db hsel hne]
  refine ⟨?_, rfl, processList_counts env now db (listDue db now)⟩
  intro r' hr' hid
  rw [processList_db_eq] at hr'
  rcases List.mem_map.mp hr' with ⟨r, hr, rfl⟩
  have hidr : r.id = f.id := by
    rw [← listWrite_id env now (listDue db now) r]; exact hid
  have hfdb : f ∈ db := (List.mem_filter.mp hf).1
  have hrf : r = f :=
    List.inj_on_of_nodup_map hnodup hr hfdb hidr
  subst hrf
  rcases List.append_of_mem hf with ⟨pre, post, hdue⟩
  have hdnodup : ((listDue db now).map (fun r => r.id)).Nodup :=
    List.Nodup.sublist (List.Sublist.map _ (List.filter_sublist db)) hnodup
  rw [hdue] at hdnodup
  rw [List.map_append, List.map_cons] at hdnodup
  rcases List.nodup_append.mp hdnodup with ⟨-, hcons, hdisj⟩
  have hpost : ∀ g ∈ post, r.id ≠ g.id := by
    intro g hg hgid
    exact (List.nodup_cons.mp hcons).1 (hgid ▸ List.mem_map_of_mem _ hg)
  have hpre : ∀ g ∈ pre, r.id ≠ g.id := by
    intro g hg hgid
    exact hdisj (List.mem_map_of_mem _ hg) (by simp [hgid])
  rw [hdue, listWrite_append]
  rw [listWrite_skip env now pre r hpre]
  rw [listWrite]
  rw [listWrite_skip env now post (itemWrite env now r r)
    (by intro g hg; rw [itemWrite_id]; exact hpost g hg)]
  have hthrow := itemWrite_throw env now r r m ht rfl
  have hjs : jsStr m "Unknown error occurred" = m := by
    unfold jsStr; simp [hm]
  rw [hjs] at hthrow
  exact hthrow

/-- Witness for C6 on a two-item table where item 1 raises an exception
and item 2 is delivered. -/
theorem c6_witness :
    rowDThrowFailed.status = "failed"
    ∧ rowDThrowFailed.error_message = some "kaboom" :=
  (c6_exception_isolated envThrowFx 100 [rowD, rowE] rowD "kaboom"
      rfl (by decide) (by decide) (by decide) (by decide)).1
    rowDThrowFailed (by decide) (by decide)

theorem listDue_eq_nil (db : List FileRow) (now : Nat)
    (h : ∀ r ∈ db,
      (r.status == "pending" && decide (r.scheduled_date ≤ now)) = false) :
    listDue db now = [] := by
  unfold listDue
  rw [List.filter_eq_nil_iff]
  intro a ha
  simp [h a ha]

theorem listDue_after_sweep (env : Env) (now : Nat) (db : List FileRow)
    (hsel : env.selectErr = false) (hclaim : ∀ i, env.claimErr i = false) :
    listDue (processScheduledFiles env now db).db now = [] := by
  by_cases hdue : (listDue db now).isEmpty = true
  · have hnil : listDue db now = [] := by
      cases hd : listDue db now with
      | nil => rfl
      | cons a l => rw [hd] at hdue; simp at hdue
    unfold processScheduledFiles
    simp [hsel, hnil]
  · rw [sweep_unfold_nonempty env now db hsel (by simpa using hdue)]
    show listDue (processList env now db (listDue db now)).db now = []
    rw [processList_db_eq]
    apply listDue_eq_nil
    intro a ha
    rcases List.mem_map.mp ha with ⟨r, hr, rfl⟩
    rcases listWrite_cases env now (listDue db now) r
        (fun g _ => hclaim g.id) with h | ⟨heq, hids⟩
    · simp [beq_eq_false_iff_ne.mpr h]
    · rw [heq]
      cases hb : (r.status == "pending" && decide (r.scheduled_date ≤ now)) with
      | false => rfl
      | true =>
          have hrdue : r ∈ listDue db now := List.mem_filter.mpr ⟨hr, hb⟩
          exact absurd rfl (hids r hrdue)

/-- C8: a sweep whose due query comes back empty returns zero counts,
leaves the table untouched and invokes no Notifier; and after one
fault-free sweep, a second sweep at the same instant finds nothing due
and returns zero counts with no Notifier invocation. -/
theorem c8_empty_and_idempotent (env1 env2 : Env) (now : Nat)
    (db : List FileRow)
    (hsel : env1.selectErr = false)
    (hclaim : ∀ i, env1.claimErr i = false) :
    (listDue db now = [] →
      processScheduledFiles env1 now db = ⟨⟨0, 0, 0⟩, db, []⟩)
    ∧ (processScheduledFiles env2 now
        (processScheduledFiles env1 now db).db).result = ⟨0, 0, 0⟩
    ∧ (processScheduledFiles env2 now
        (processScheduledFiles env1 now db).db).notifierCalls = [] := by
  have h0 := listDue_after_sweep env1 now db hsel hclaim
  have h1 : processScheduledFiles env2 now (processScheduledFiles env1 now db).db
      = ⟨⟨0, 0, 0⟩, (processScheduledFiles env1 now db).db, []⟩ := by
    generalize hmid : (processScheduledFiles env1 now db).db = mid
    rw [hmid] at h0
    unfold processScheduledFiles
    cases hs2 : env2.selectErr <;> simp [hs2, h0]
  refine ⟨?_, by rw [h1], by rw [h1]⟩
  intro h
  unfold processScheduledFiles
  simp [hsel, h]

/-- Witness for C8: an empty-due sweep on a not-yet-due table, and a
second sweep right after a delivering sweep. -/
theorem c8_witness :
    processScheduledFiles envOk 20 [rowD] = ⟨⟨0, 0, 0⟩, [rowD], []⟩
    ∧ (processScheduledFiles envOk 100
        (processScheduledFiles envOk 100 [rowD, rowE]).db).result
      = ⟨0, 0, 0⟩ :=
  ⟨(c8_empty_and_idempotent envOk envOk 20 [rowD] rfl (fun _ => rfl)).1
      (by decide),
   (c8_empty_and_idempotent envOk envOk 100 [rowD, rowE] rfl
      (fun _ => rfl)).2.1⟩

end TimeSenderHub
